import Mathlib

/-!
Verification of the Gsearch resilient fetch-and-extract engine
(`gsearch.py`: class `GoogleScraper`).

The Python source is shallowly embedded below:
* strings are embedded as `String` / `List Char`;
* floating-point delays and monotonic timestamps are embedded as `ℚ`;
* `random.uniform(0, j)` is embedded as an explicit sample argument
  bounded by hypotheses `0 ≤ j ∧ j ≤ jitterMax`;
* the `requests` transport is embedded as an environment function
  `fetch : ℕ → FetchOutcome` giving the outcome of each attempt;
* `BeautifulSoup` parsing is embedded as an abstract function
  `parse : List Char → List Container` producing the result containers
  (`soup.find_all('div', class_='g')`) together with what the per-container
  element lookups resolve to;
* Unicode NFKD normalisation + combining-mark stripping + lowercasing
  (`gsearch.py` lines 281-284) is embedded as an abstract text transform
  `norm : List Char → List Char`.
-/

/-- One extracted search result (`{'title': ..., 'link': ..., 'snippet': ...}`). -/
structure SearchResult where
  title : String
  link : String
  snippet : String
deriving DecidableEq

/-! ## AntiBotDetector: `GoogleScraper._is_captcha_page` (lines 275-334) -/

/-- `captcha_indicators` from `_is_captcha_page`. -/
def captchaIndicators : List String :=
  [ "our systems have detected unusual traffic"
  , "to continue, please type the characters"
  , "verify that you are not a robot"
  , "detected unusual traffic from your computer network"
  , "controleer of je geen robot bent"
  , "ik ben geen robot" ]

/-- `consent_indicators` from `_is_captcha_page`. -/
def consentIndicators : List String :=
  [ "consent.google.com"
  , "consent.google.nl"
  , "before you continue to google search"
  , "voordat u doorgaat naar google zoeken"
  , "voordat je verdergaat naar google zoeken"
  , "avant de continuer vers la recherche google"
  , "bevor sie mit der google-suche fortfahren" ]

/-- `localized_consent_indicators` from `_is_captcha_page`. -/
def localizedConsentIndicators : List String :=
  [ "voordat je verdergaat naar google zoeken"
  , "ga verder naar google zoeken" ]

/-- `recaptcha_markers` from `_is_captcha_page`. -/
def recaptchaMarkers : List String :=
  [ "g-recaptcha"
  , "grecaptcha"
  , "recaptcha/api.js" ]

/-- `structural_indicators` from `_is_captcha_page`. -/
def structuralIndicators : List String :=
  [ "<form action=\x22https://consent.google.com/save\x22"
  , "<form action=\x22https://www.google.com/sorry/index\x22" ]

/-- `indicator_sets` from `_is_captcha_page`. -/
def indicatorSets : List (List String) :=
  [ captchaIndicators
  , consentIndicators
  , localizedConsentIndicators
  , recaptchaMarkers
  , structuralIndicators ]

/-- `html.lower()`: character-wise lower-casing of the body. -/
def lowerChars (s : List Char) : List Char := s.map Char.toLower

/-- `GoogleScraper._is_captcha_page`.  `norm` stands for the composite
transform `NFKD-normalise, drop combining marks, lowercase`
(lines 281-284), which is external Unicode machinery; the detector logic
itself is embedded exactly: an empty body is never blocked, otherwise the
body is blocked iff some indicator of some family occurs in one of the
two search spaces. -/
def isCaptchaPage (norm : List Char → List Char) (html : List Char) : Bool :=
  if html.isEmpty then
    false
  else
    let searchSpaces : List (List Char) := [lowerChars html, norm html]
    indicatorSets.any fun indicatorSet =>
      indicatorSet.any fun indicator =>
        searchSpaces.any fun space => decide (indicator.data <:+: space)

/-! ## BackoffPolicy: `GoogleScraper._apply_backoff` (lines 87-102)

`delayFor delay maxBackoff jitterMax j n` is the number of seconds the
call sleeps (`0` when it returns without sleeping); `j` is the sample
produced by `random.uniform(0.0, self.backoff_jitter)`. -/

def delayFor (delay maxBackoff jitterMax j : ℚ) (n : ℕ) : ℚ :=
  if delay ≤ 0 then 0
  else
    let baseDelay := delay * 2 ^ (max (n - 1) 0)
    let jitter := if 0 < jitterMax then j else 0
    let sleepSeconds :=
      if 0 < maxBackoff then min (baseDelay + jitter) maxBackoff
      else baseDelay + jitter
    if sleepSeconds ≤ 0 then 0 else sleepSeconds

/-! ## RollingRateLimiter: `_prune_request_timestamps` / `_enforce_rate_limit`
(lines 104-132), together with the constructor normalisation of
`max_requests_per_minute` (lines 61-64). -/

/-- Constructor lines 61-63: a non-positive configured cap becomes `None`. -/
def normalizeCap : Option ℤ → Option ℤ
  | none => none
  | some r => if r ≤ 0 then none else some r

/-- `GoogleScraper._prune_request_timestamps`: pop entries from the front
while they are at least 60 seconds old. -/
def pruneTimestamps (currentTime : ℚ) : List ℚ → List ℚ
  | [] => []
  | t :: ts => if 60 ≤ currentTime - t then pruneTimestamps currentTime ts else t :: ts

/-- Result of one `_enforce_rate_limit` call: the deque contents, the
monotonic time when the call returns, and whether `time.sleep` ran. -/
structure RateLimitStep where
  timestamps : List ℚ
  endTime : ℚ
  slept : Bool
deriving DecidableEq

/-- `GoogleScraper._enforce_rate_limit`.  `cap` is the (already
constructor-normalised) `max_requests_per_minute`; `now` is
`time.monotonic()` at entry; sleeping for `s` seconds makes the clock read
`now + s` afterwards.  The inner `[]` case is unreachable for a positive
cap (in Python it would index an empty deque). -/
def enforceRateLimit (cap : Option ℤ) (ts : List ℚ) (now : ℚ) : RateLimitStep :=
  match cap with
  | none => ⟨ts, now, false⟩
  | some r =>
    if r = 0 then ⟨ts, now, false⟩
    else
      let ts1 := pruneTimestamps now ts
      if (ts1.length : ℤ) < r then ⟨ts1 ++ [now], now, false⟩
      else
        match ts1 with
        | [] => ⟨[now], now, false⟩
        | earliest :: _ =>
          let sleepSeconds := 60 - (now - earliest)
          if 0 < sleepSeconds then
            let now2 := now + sleepSeconds
            let ts2 := pruneTimestamps now2 ts1
            ⟨ts2 ++ [now2], now2, true⟩
          else ⟨ts1 ++ [now], now, false⟩

/-! ## RotationPool: `itertools.cycle` over the cleaned value lists
(constructor lines 56-58 and 76-79, `_get_next_proxy` lines 81-85). -/

/-- A `cycle(values)` iterator: the backing list plus how many `next`
calls have been made. -/
structure RotationPool where
  values : List String
  idx : ℕ
deriving DecidableEq

/-- One `next()` on the cycle; `none` models the absent iterator
(`self._proxy_cycle is None` / `self._user_agent_iter is None`) used when
no values are configured. -/
def poolNext (p : RotationPool) : Option String × RotationPool :=
  match p.values with
  | [] => (none, p)
  | _ :: _ => (p.values.get? (p.idx % p.values.length), ⟨p.values, p.idx + 1⟩)

/-- The first components of `n` consecutive `next()` calls. -/
def poolOutputs (p : RotationPool) : ℕ → List (Option String)
  | 0 => []
  | n + 1 =>
    let (o, p2) := poolNext p
    o :: poolOutputs p2 n

/-- Constructor line 56: `[proxy for proxy in (proxies or []) if proxy]`. -/
def cleanedProxies (proxies : List String) : List String :=
  proxies.filter fun p => p != ""

/-- Constructor line 76: `[ua for ua in user_agents or [] if ua and ua.strip()]`. -/
def cleanedUserAgents (userAgents : List String) : List String :=
  userAgents.filter fun ua => ua != "" && ua.trim != ""

/-! ## ResultExtractor: the parsing loop of `search` (lines 211-241).

A `Container` records what the element queries resolve to on one
`div.g` result container: `find('h3')` text, `find('a').get('href')`,
the `span.aCOpRe/st` snippet text and the `div.VwiC3b/yXK7lf` snippet
text (each `none` when the element is absent). -/

structure Container where
  title : Option String
  link : Option String
  snippetSpan : Option String
  snippetDiv : Option String
deriving DecidableEq

/-- Line 219: `title_element.get_text() if title_element else "No title"`. -/
def containerTitle (c : Container) : String := c.title.getD "No title"

/-- Line 223: `link_element.get('href') if link_element else "No link"`. -/
def containerLink (c : Container) : String := c.link.getD "No link"

/-- Lines 226-229: try the span snippet, then the div snippet, else the
placeholder. -/
def containerSnippet (c : Container) : String :=
  match c.snippetSpan with
  | some s => s
  | none =>
    match c.snippetDiv with
    | some s => s
    | none => "No description"

/-- The dictionary appended at lines 233-237. -/
def mkSearchResult (c : Container) : SearchResult :=
  ⟨containerTitle c, containerLink c, containerSnippet c⟩

/-- Line 232: `title != "No title" and link != "No link"`. -/
def contributes (c : Container) : Bool :=
  containerTitle c != "No title" && containerLink c != "No link"

/-- The extraction `for` loop (lines 216-241): `count` is `len(results)`
so far; append when the container contributes, then break once
`len(results) >= num_results`. -/
def extractLoop (numResults : ℤ) (count : ℕ) : List Container → List SearchResult
  | [] => []
  | c :: cs =>
    if contributes c then
      if numResults ≤ (count : ℤ) + 1 then [mkSearchResult c]
      else mkSearchResult c :: extractLoop numResults (count + 1) cs
    else
      if numResults ≤ (count : ℤ) then []
      else extractLoop numResults count cs

/-- Extraction starting from the empty `results` list. -/
def extractResults (numResults : ℤ) (cs : List Container) : List SearchResult :=
  extractLoop numResults 0 cs

/-! ## SearchOrchestrator: `GoogleScraper.search` (lines 134-250).

The transport is an environment `fetch : ℕ → FetchOutcome` indexed by
the 0-based attempt number: `exn` is a `requests.RequestException`
raised by `session.get`, and `page body status` is a received response
(whose `raise_for_status()` raises a `requests.HTTPError`, itself a
`RequestException`, exactly when `400 ≤ status`). -/

inductive FetchOutcome where
  | exn
  | page (body : List Char) (status : ℕ)
deriving DecidableEq

/-- The `requests.Session` state the loop observes: the `User-Agent`
header plus all remaining headers. -/
structure Session where
  userAgent : String
  otherHeaders : List (String × String)
deriving DecidableEq

/-- Observable actions of one `search` call: `attempt i proxy ua` is one
`session.get` issue (0-based call index, proxy argument, active
user-agent header); `backoff n` is one `self._apply_backoff(n)` call. -/
inductive Event where
  | attempt (idx : ℕ) (proxy : Option String) (ua : String)
  | backoff (n : ℕ)
deriving DecidableEq

/-- How a `search` call finishes: `ok rs` is `return results` and
`captchaError` is a propagated `CaptchaDetectedError`. -/
inductive SearchOutcome where
  | ok (rs : List SearchResult)
  | captchaError
deriving DecidableEq

/-- Line 154: `max_attempts = len(self._proxies) if self._proxies else 1`. -/
def maxAttemptsFor (proxyPool : RotationPool) : ℕ :=
  if proxyPool.values.isEmpty then 1 else proxyPool.values.length

/-- The `except requests.RequestException` branch of the `search` loop
(lines 192-202).  It is shared between a
transport exception raised by `session.get` and the `HTTPError` raised
by `raise_for_status()` on an error status: both land in the same
`except requests.RequestException` block.  The attempt counter was just
incremented to `newAttempts`; the backoff at line 194 always runs; then
the loop either returns the (empty) results list — on exhaustion, or
immediately when no proxy was in use — or retries with `retry`, the
rest of the loop. -/
def requestExceptionBranch (attEv : Event) (newAttempts maxAtt : ℕ) (proxyUsed : Bool)
    (retry : SearchOutcome × List Event) : SearchOutcome × List Event :=
  if proxyUsed then
    if maxAtt ≤ newAttempts then (.ok [], [attEv, .backoff newAttempts])
    else (retry.1, attEv :: .backoff newAttempts :: retry.2)
  else (.ok [], [attEv, .backoff newAttempts])

/-- The `while attempts < max_attempts` loop of `search` (lines 163-202)
followed by result extraction (lines 208-250).  `fuel` bounds the
recursion; the loop is always entered with `fuel = maxAtt` and `attempts`
grows by one per iteration, so the fuel never runs out before the
`attempts < maxAtt` guard fails.  Branches mirror the source:
* transport exception and `raise_for_status` error: `requestExceptionBranch`;
* blocked body: `attempts += 1`, raise on exhaustion (no backoff), else
  backoff and retry;
* otherwise `break` and extract from the body. -/
def searchLoop (norm : List Char → List Char) (parseBody : List Char → List Container)
    (numResults : ℤ) (fetch : ℕ → FetchOutcome) (sess : Session) (maxAtt : ℕ) :
    ℕ → ℕ → ℕ → RotationPool → SearchOutcome × List Event
  | 0, _, _, _ => (.ok [], [])
  | fuel + 1, attempts, idx, pool =>
    if attempts < maxAtt then
      let proxyOpt := (poolNext pool).1
      let attEv := Event.attempt idx proxyOpt sess.userAgent
      let retry :=
        searchLoop norm parseBody numResults fetch sess maxAtt fuel (attempts + 1) (idx + 1)
          (poolNext pool).2
      match fetch idx with
      | .exn => requestExceptionBranch attEv (attempts + 1) maxAtt proxyOpt.isSome retry
      | .page body status =>
        if isCaptchaPage norm body then
          if maxAtt ≤ attempts + 1 then (.captchaError, [attEv])
          else (retry.1, attEv :: .backoff (attempts + 1) :: retry.2)
        else if 400 ≤ status then
          requestExceptionBranch attEv (attempts + 1) maxAtt proxyOpt.isSome retry
        else (.ok (extractResults numResults (parseBody body)), [attEv])
    else (.ok [], [])

/-- The observable result of one `search(query, num_results)` call. -/
structure SearchRun where
  outcome : SearchOutcome
  trace : List Event
  finalSession : Session
deriving DecidableEq

/-- Lines 158-160: the session after the one-time entry user-agent
rotation (`self.session.headers['User-Agent'] = next(self._user_agent_iter)`
when an iterator exists, otherwise the session is untouched). -/
def entrySession (sess : Session) (uaPool : RotationPool) : Session :=
  match (poolNext uaPool).1 with
  | some ua => { sess with userAgent := ua }
  | none => sess

/-- `GoogleScraper.search`: set the rotated user-agent header once
before the loop (lines 158-160; the loop body never writes the session
headers, so the final session is the entry session), then run the retry
loop. -/
def search (norm : List Char → List Char) (parseBody : List Char → List Container)
    (numResults : ℤ) (fetch : ℕ → FetchOutcome) (sess : Session)
    (uaPool proxyPool : RotationPool) : SearchRun :=
  let res :=
    searchLoop norm parseBody numResults fetch (entrySession sess uaPool)
      (maxAttemptsFor proxyPool) (maxAttemptsFor proxyPool) 0 0 proxyPool
  ⟨res.1, res.2, entrySession sess uaPool⟩

/-- `True` on `Event.attempt` events. -/
def isAttemptEv : Event → Bool
  | .attempt _ _ _ => true
  | .backoff _ => false

/-- Number of `session.get` issues recorded in a trace. -/
def countAttempts (tr : List Event) : ℕ := (tr.filter isAttemptEv).length

/-- `True` when the trace does not end with a backoff: the assertion
that the terminal transition applies no backoff sleep. -/
def noTerminalBackoff (tr : List Event) : Bool :=
  match tr.getLast? with
  | some (.backoff _) => false
  | _ => true

/-! ## Helper lemmas -/

theorem poolNext_of_nil (p : RotationPool) (h : p.values = []) : poolNext p = (none, p) := by
  unfold poolNext
  rw [h]

theorem poolNext_values (p : RotationPool) : (poolNext p).2.values = p.values := by
  unfold poolNext
  rcases hv : p.values with _ | ⟨x, xs⟩ <;> simp [hv]

theorem poolNext_isSome (p : RotationPool) (h : p.values ≠ []) :
    (poolNext p).1.isSome = true := by
  have hlen : p.idx % p.values.length < p.values.length :=
    Nat.mod_lt _ (List.length_pos.mpr h)
  unfold poolNext
  rcases hv : p.values with _ | ⟨x, xs⟩
  · exact absurd hv h
  · rw [hv] at hlen
    simp only [List.get?_eq_get hlen, Option.isSome_some]

theorem poolOutputs_formula (n : ℕ) :
    ∀ (l : List String) (idx : ℕ), l ≠ [] →
      poolOutputs ⟨l, idx⟩ n =
        (List.range n).map fun i => l.get? ((idx + i) % l.length) := by
  induction n with
  | zero => intro l idx _; simp [poolOutputs]
  | succ n ih =>
    intro l idx hl
    rcases l with _ | ⟨x, xs⟩
    · exact absurd rfl hl
    · rw [poolOutputs, List.range_succ_eq_map, List.map_cons]
      simp only [poolNext]
      rw [ih (x :: xs) (idx + 1) (by simp)]
      rw [List.map_map]
      congr 1
      refine List.map_congr_left fun a _ => ?_
      simp only [Function.comp_apply, Nat.succ_eq_add_one]
      have hidx : idx + 1 + a = idx + (a + 1) := by omega
      rw [hidx]

theorem poolOutputs_rotate (l : List String) (idx : ℕ) (h : l ≠ []) :
    poolOutputs ⟨l, idx⟩ l.length = (l.rotate (idx % l.length)).map some := by
  have hlen : 0 < l.length := List.length_pos.mpr h
  rw [poolOutputs_formula _ _ _ h]
  apply List.ext_get?
  intro i
  by_cases hi : i < l.length
  · rw [List.get?_map, List.get?_map, List.get?_range hi, List.get?_rotate hi]
    have hmod : (i + idx % l.length) % l.length = (idx + i) % l.length := by
      rw [Nat.add_mod_mod, Nat.add_comm]
    rw [hmod]
    have hj : (idx + i) % l.length < l.length := Nat.mod_lt _ hlen
    rw [List.get?_eq_get hj]
    simp
  · have h1 : ((List.range l.length).map
        fun i => l.get? ((idx + i) % l.length)).get? i = none := by
      refine List.get?_eq_none.mpr ?_
      simp only [List.length_map, List.length_range]
      omega
    have h2 : ((l.rotate (idx % l.length)).map some).get? i = none := by
      refine List.get?_eq_none.mpr ?_
      simp only [List.length_map, List.length_rotate]
      omega
    rw [h1, h2]

theorem pruneTimestamps_suffix (now : ℚ) : ∀ ts : List ℚ, pruneTimestamps now ts <:+ ts := by
  intro ts
  induction ts with
  | nil => exact List.suffix_refl _
  | cons t ts ih =>
    rw [pruneTimestamps]
    by_cases h : 60 ≤ now - t
    · rw [if_pos h]
      exact ih.trans (List.suffix_cons t ts)
    · rw [if_neg h]

theorem pruneTimestamps_length (now : ℚ) (ts : List ℚ) :
    (pruneTimestamps now ts).length ≤ ts.length :=
  (pruneTimestamps_suffix now ts).sublist.length_le

theorem mem_of_mem_pruneTimestamps {now t : ℚ} {ts : List ℚ}
    (h : t ∈ pruneTimestamps now ts) : t ∈ ts :=
  (pruneTimestamps_suffix now ts).sublist.mem h

theorem pruneTimestamps_fresh (now : ℚ) :
    ∀ ts : List ℚ, ts.Pairwise (· ≤ ·) →
      ∀ t ∈ pruneTimestamps now ts, now - t < 60 := by
  intro ts
  induction ts with
  | nil => intro _ t ht; simp [pruneTimestamps] at ht
  | cons x xs ih =>
    intro hp t ht
    rw [pruneTimestamps] at ht
    rcases List.pairwise_cons.mp hp with ⟨hx, hxs⟩
    by_cases h : 60 ≤ now - x
    · rw [if_pos h] at ht
      exact ih hxs t ht
    · rw [if_neg h] at ht
      rcases List.mem_cons.mp ht with rfl | hmem
      · linarith
      · have := hx t hmem
        linarith

theorem pruneTimestamps_pairwise {now : ℚ} {ts : List ℚ} (h : ts.Pairwise (· ≤ ·)) :
    (pruneTimestamps now ts).Pairwise (· ≤ ·) :=
  h.sublist (pruneTimestamps_suffix now ts).sublist

theorem extractLoop_characterization (numResults : ℤ) :
    ∀ (cs : List Container) (count : ℕ), (count : ℤ) < numResults →
      extractLoop numResults count cs =
        ((cs.filter contributes).map mkSearchResult).take (numResults - count).toNat := by
  intro cs
  induction cs with
  | nil => intro count _; simp [extractLoop]
  | cons c cs ih =>
    intro count hcount
    rw [extractLoop]
    by_cases hc : contributes c
    · rw [if_pos hc]
      rw [List.filter_cons_of_pos hc, List.map_cons]
      by_cases h1 : numResults ≤ (count : ℤ) + 1
      · rw [if_pos h1]
        have : (numResults - count).toNat = 1 := by omega
        rw [this, List.take_succ_cons, List.take_zero]
      · rw [if_neg h1]
        rw [ih (count + 1) (by omega)]
        have h2 : (numResults - (count : ℤ)).toNat = (numResults - ((count + 1 : ℕ) : ℤ)).toNat + 1 := by
          push_cast
          omega
        rw [h2, List.take_succ_cons]
    · rw [if_neg hc]
      rw [if_neg (by omega : ¬ numResults ≤ (count : ℤ))]
      rw [List.filter_cons_of_neg (by simpa using hc)]
      exact ih count hcount

theorem searchLoop_ua_mem (norm : List Char → List Char) (parseBody : List Char → List Container)
    (numResults : ℤ) (fetch : ℕ → FetchOutcome) (sess : Session) (maxAtt : ℕ) :
    ∀ (fuel attempts idx : ℕ) (pool : RotationPool) (i : ℕ) (p : Option String) (ua : String),
      Event.attempt i p ua ∈
        (searchLoop norm parseBody numResults fetch sess maxAtt fuel attempts idx pool).2 →
      ua = sess.userAgent := by
  intro fuel
  induction fuel with
  | zero =>
    intro attempts idx pool i p ua h
    simp [searchLoop] at h
  | succ fuel ih =>
    intro attempts idx pool i p ua h
    by_cases hlt : attempts < maxAtt
    · rcases hf : fetch idx with _ | ⟨body, status⟩
      · by_cases hps : (poolNext pool).1.isSome
        · by_cases hmax : maxAtt ≤ attempts + 1
          · simp [searchLoop, hlt, hf, requestExceptionBranch, hps, hmax] at h
            exact h.2.2
          · simp [searchLoop, hlt, hf, requestExceptionBranch, hps, hmax] at h
            rcases h with ⟨_, _, h⟩ | h
            · exact h
            · exact ih (attempts + 1) (idx + 1) (poolNext pool).2 i p ua h
        · simp [searchLoop, hlt, hf, requestExceptionBranch, hps] at h
          exact h.2.2
      · by_cases hcap : isCaptchaPage norm body
        · by_cases hmax : maxAtt ≤ attempts + 1
          · simp [searchLoop, hlt, hf, hcap, hmax] at h
            exact h.2.2
          · simp [searchLoop, hlt, hf, hcap, hmax] at h
            rcases h with ⟨_, _, h⟩ | h
            · exact h
            · exact ih (attempts + 1) (idx + 1) (poolNext pool).2 i p ua h
        · by_cases hstat : 400 ≤ status
          · by_cases hps : (poolNext pool).1.isSome
            · by_cases hmax : maxAtt ≤ attempts + 1
              · simp [searchLoop, hlt, hf, hcap, hstat, requestExceptionBranch, hps, hmax] at h
                exact h.2.2
              · simp [searchLoop, hlt, hf, hcap, hstat, requestExceptionBranch, hps, hmax] at h
                rcases h with ⟨_, _, h⟩ | h
                · exact h
                · exact ih (attempts + 1) (idx + 1) (poolNext pool).2 i p ua h
            · simp [searchLoop, hlt, hf, hcap, hstat, requestExceptionBranch, hps] at h
              exact h.2.2
          · simp [searchLoop, hlt, hf, hcap, hstat] at h
            exact h.2.2
    · simp [searchLoop, hlt] at h

theorem countAttempts_attempt_backoff_cons (i : ℕ) (p : Option String) (ua : String) (n : ℕ)
    (tr : List Event) :
    countAttempts (.attempt i p ua :: .backoff n :: tr) = 1 + countAttempts tr := by
  simp [countAttempts, isAttemptEv, List.filter]
  omega

theorem maxAttemptsFor_pos (pool : RotationPool) : 0 < maxAttemptsFor pool := by
  unfold maxAttemptsFor
  rcases hv : pool.values with _ | ⟨x, xs⟩ <;> simp [hv]

theorem searchLoop_allBlocked (norm : List Char → List Char)
    (parseBody : List Char → List Container) (numResults : ℤ) (fetch : ℕ → FetchOutcome)
    (sess : Session) (maxAtt : ℕ)
    (hb : ∀ i, ∃ body status, fetch i = .page body status ∧ isCaptchaPage norm body = true) :
    ∀ (fuel attempts idx : ℕ) (pool : RotationPool), attempts + fuel = maxAtt → 0 < fuel →
      (searchLoop norm parseBody numResults fetch sess maxAtt fuel attempts idx pool).1 =
          .captchaError ∧
        countAttempts
          (searchLoop norm parseBody numResults fetch sess maxAtt fuel attempts idx pool).2 =
          fuel := by
  intro fuel
  induction fuel with
  | zero => intro attempts idx pool _ hpos; omega
  | succ fuel ih =>
    intro attempts idx pool heq _
    obtain ⟨body, status, hf, hcap⟩ := hb idx
    have hlt : attempts < maxAtt := by omega
    by_cases hmax : maxAtt ≤ attempts + 1
    · have hfuel : fuel = 0 := by omega
      subst hfuel
      simp [searchLoop, hlt, hf, hcap, hmax, countAttempts, isAttemptEv, List.filter]
    · have hfpos : 0 < fuel := by omega
      have ihr := ih (attempts + 1) (idx + 1) (poolNext pool).2 (by omega) hfpos
      simp [searchLoop, hlt, hf, hcap, hmax, countAttempts_attempt_backoff_cons]
      refine ⟨ihr.1, ?_⟩
      have h2 := ihr.2
      rw [countAttempts] at h2 ⊢
      omega

theorem searchLoop_noBlocked_ok (norm : List Char → List Char)
    (parseBody : List Char → List Container) (numResults : ℤ) (fetch : ℕ → FetchOutcome)
    (sess : Session) (maxAtt : ℕ)
    (hb : ∀ i body status, fetch i = .page body status → isCaptchaPage norm body = false) :
    ∀ (fuel attempts idx : ℕ) (pool : RotationPool), ∃ rs,
      (searchLoop norm parseBody numResults fetch sess maxAtt fuel attempts idx pool).1 =
        .ok rs := by
  intro fuel
  induction fuel with
  | zero => intro attempts idx pool; exact ⟨[], rfl⟩
  | succ fuel ih =>
    intro attempts idx pool
    by_cases hlt : attempts < maxAtt
    · rcases hf : fetch idx with _ | ⟨body, status⟩
      · by_cases hps : (poolNext pool).1.isSome
        · by_cases hmax : maxAtt ≤ attempts + 1
          · exact ⟨[], by simp [searchLoop, hlt, hf, requestExceptionBranch, hps, hmax]⟩
          · obtain ⟨rs, hrs⟩ := ih (attempts + 1) (idx + 1) (poolNext pool).2
            exact ⟨rs, by simp [searchLoop, hlt, hf, requestExceptionBranch, hps, hmax, hrs]⟩
        · exact ⟨[], by simp [searchLoop, hlt, hf, requestExceptionBranch, hps]⟩
      · have hcap : isCaptchaPage norm body = false := hb idx body status hf
        by_cases hstat : 400 ≤ status
        · by_cases hps : (poolNext pool).1.isSome
          · by_cases hmax : maxAtt ≤ attempts + 1
            · exact ⟨[], by simp [searchLoop, hlt, hf, hcap, hstat, requestExceptionBranch, hps, hmax]⟩
            · obtain ⟨rs, hrs⟩ := ih (attempts + 1) (idx + 1) (poolNext pool).2
              exact ⟨rs, by
                simp [searchLoop, hlt, hf, hcap, hstat, requestExceptionBranch, hps, hmax, hrs]⟩
          · exact ⟨[], by simp [searchLoop, hlt, hf, hcap, hstat, requestExceptionBranch, hps]⟩
        · exact ⟨extractResults numResults (parseBody body), by
            simp [searchLoop, hlt, hf, hcap, hstat]⟩
    · exact ⟨[], by simp [searchLoop, hlt]⟩

theorem searchLoop_captcha_needs_blocked (norm : List Char → List Char)
    (parseBody : List Char → List Container) (numResults : ℤ) (fetch : ℕ → FetchOutcome)
    (sess : Session) (maxAtt : ℕ) :
    ∀ (fuel attempts idx : ℕ) (pool : RotationPool),
      (searchLoop norm parseBody numResults fetch sess maxAtt fuel attempts idx pool).1 =
        .captchaError →
      ∃ i body status, fetch i = .page body status ∧ isCaptchaPage norm body = true := by
  intro fuel
  induction fuel with
  | zero => intro attempts idx pool h; simp [searchLoop] at h
  | succ fuel ih =>
    intro attempts idx pool h
    by_cases hlt : attempts < maxAtt
    · rcases hf : fetch idx with _ | ⟨body, status⟩
      · by_cases hps : (poolNext pool).1.isSome
        · by_cases hmax : maxAtt ≤ attempts + 1
          · simp [searchLoop, hlt, hf, requestExceptionBranch, hps, hmax] at h
          · simp [searchLoop, hlt, hf, requestExceptionBranch, hps, hmax] at h
            exact ih (attempts + 1) (idx + 1) (poolNext pool).2 h
        · simp [searchLoop, hlt, hf, requestExceptionBranch, hps] at h
      · by_cases hcap : isCaptchaPage norm body
        · exact ⟨idx, body, status, hf, hcap⟩
        · by_cases hstat : 400 ≤ status
          · by_cases hps : (poolNext pool).1.isSome
            · by_cases hmax : maxAtt ≤ attempts + 1
              · simp [searchLoop, hlt, hf, hcap, hstat, requestExceptionBranch, hps, hmax] at h
              · simp [searchLoop, hlt, hf, hcap, hstat, requestExceptionBranch, hps, hmax] at h
                exact ih (attempts + 1) (idx + 1) (poolNext pool).2 h
            · simp [searchLoop, hlt, hf, hcap, hstat, requestExceptionBranch, hps] at h
          · simp [searchLoop, hlt, hf, hcap, hstat] at h
    · simp [searchLoop, hlt] at h

theorem searchLoop_allExn (norm : List Char → List Char)
    (parseBody : List Char → List Container) (numResults : ℤ) (fetch : ℕ → FetchOutcome)
    (sess : Session) (maxAtt : ℕ) (hb : ∀ i, fetch i = .exn) :
    ∀ (fuel attempts idx : ℕ) (pool : RotationPool), pool.values ≠ [] →
      attempts + fuel = maxAtt → 0 < fuel →
      (searchLoop norm parseBody numResults fetch sess maxAtt fuel attempts idx pool).1 =
          .ok [] ∧
        countAttempts
          (searchLoop norm parseBody numResults fetch sess maxAtt fuel attempts idx pool).2 =
          fuel ∧
        (searchLoop norm parseBody numResults fetch sess maxAtt fuel attempts idx pool).2.length =
          2 * fuel := by
  intro fuel
  induction fuel with
  | zero => intro attempts idx pool _ _ hpos; omega
  | succ fuel ih =>
    intro attempts idx pool hpool heq _
    have hf := hb idx
    have hlt : attempts < maxAtt := by omega
    have hps : (poolNext pool).1.isSome = true := poolNext_isSome pool hpool
    by_cases hmax : maxAtt ≤ attempts + 1
    · have hfuel : fuel = 0 := by omega
      subst hfuel
      simp [searchLoop, hlt, hf, requestExceptionBranch, hps, hmax, countAttempts, isAttemptEv,
        List.filter]
    · have hpool2 : (poolNext pool).2.values ≠ [] := by
        rw [poolNext_values]
        exact hpool
      have ihr := ih (attempts + 1) (idx + 1) (poolNext pool).2 hpool2 (by omega) (by omega)
      simp [searchLoop, hlt, hf, requestExceptionBranch, hps, hmax,
        countAttempts_attempt_backoff_cons]
      refine ⟨ihr.1, ?_, ?_⟩
      · have h2 := ihr.2.1
        rw [countAttempts] at h2 ⊢
        omega
      · have h3 := ihr.2.2
        omega

theorem searchLoop_noProxy_exn (norm : List Char → List Char)
    (parseBody : List Char → List Container) (numResults : ℤ) (fetch : ℕ → FetchOutcome)
    (sess : Session) (maxAtt : ℕ) (fuel attempts idx : ℕ) (pool : RotationPool)
    (hpool : pool.values = []) (hf : fetch idx = .exn) (hlt : attempts < maxAtt) :
    searchLoop norm parseBody numResults fetch sess maxAtt (fuel + 1) attempts idx pool =
      (.ok [], [.attempt idx none sess.userAgent, .backoff (attempts + 1)]) := by
  have hpn : poolNext pool = (none, pool) := poolNext_of_nil pool hpool
  simp [searchLoop, hlt, hf, hpn, requestExceptionBranch]

theorem alternation_single (i : ℕ) (p : Option String) (ua : String) (k : ℕ) (ev : Event)
    (h : ([Event.attempt i p ua] : List Event)[k]? = some ev) :
    isAttemptEv ev = decide (k % 2 = 0) := by
  rcases k with _ | k
  · simp at h
    subst h
    rfl
  · simp at h

theorem alternation_pair (i : ℕ) (p : Option String) (ua : String) (n k : ℕ) (ev : Event)
    (h : ([Event.attempt i p ua, Event.backoff n] : List Event)[k]? = some ev) :
    isAttemptEv ev = decide (k % 2 = 0) := by
  rcases k with _ | _ | k
  · simp at h
    subst h
    rfl
  · simp at h
    subst h
    rfl
  · simp at h

theorem alternation_cons2 {tr : List Event} {k : ℕ} {ev : Event} (i : ℕ) (p : Option String)
    (ua : String) (n : ℕ)
    (h : (Event.attempt i p ua :: Event.backoff n :: tr)[k]? = some ev)
    (ih : ∀ (k : ℕ) (ev : Event), tr[k]? = some ev → isAttemptEv ev = decide (k % 2 = 0)) :
    isAttemptEv ev = decide (k % 2 = 0) := by
  rcases k with _ | _ | k
  · simp at h
    subst h
    rfl
  · simp at h
    subst h
    rfl
  · simp only [List.getElem?_cons_succ] at h
    rw [ih k ev h]
    simp only [decide_eq_decide]
    omega

theorem searchLoop_alternation (norm : List Char → List Char)
    (parseBody : List Char → List Container) (numResults : ℤ) (fetch : ℕ → FetchOutcome)
    (sess : Session) (maxAtt : ℕ) :
    ∀ (fuel attempts idx : ℕ) (pool : RotationPool) (k : ℕ) (ev : Event),
      (searchLoop norm parseBody numResults fetch sess maxAtt fuel attempts idx pool).2[k]? =
        some ev →
      isAttemptEv ev = decide (k % 2 = 0) := by
  intro fuel
  induction fuel with
  | zero => intro attempts idx pool k ev h; simp [searchLoop] at h
  | succ fuel ih =>
    intro attempts idx pool k ev h
    by_cases hlt : attempts < maxAtt
    · rcases hf : fetch idx with _ | ⟨body, status⟩
      · by_cases hps : (poolNext pool).1.isSome
        · by_cases hmax : maxAtt ≤ attempts + 1
          · simp only [searchLoop, hlt, if_true, hf, requestExceptionBranch, hps, if_pos hmax] at h
            exact alternation_pair _ _ _ _ k ev h
          · simp only [searchLoop, hlt, if_true, hf, requestExceptionBranch, hps, if_neg hmax] at h
            exact alternation_cons2 _ _ _ _ h
              fun k ev hh => ih (attempts + 1) (idx + 1) (poolNext pool).2 k ev hh
        · simp only [searchLoop, hlt, if_true, hf, requestExceptionBranch, hps, if_false,
            Bool.false_eq_true] at h
          exact alternation_pair _ _ _ _ k ev h
      · by_cases hcap : isCaptchaPage norm body
        · by_cases hmax : maxAtt ≤ attempts + 1
          · simp only [searchLoop, hlt, if_true, hf, hcap, if_pos hmax] at h
            exact alternation_single _ _ _ k ev h
          · simp only [searchLoop, hlt, if_true, hf, hcap, if_neg hmax] at h
            exact alternation_cons2 _ _ _ _ h
              fun k ev hh => ih (attempts + 1) (idx + 1) (poolNext pool).2 k ev hh
        · by_cases hstat : 400 ≤ status
          · by_cases hps : (poolNext pool).1.isSome
            · by_cases hmax : maxAtt ≤ attempts + 1
              · simp only [searchLoop, hlt, if_true, hf, hcap, hstat, requestExceptionBranch, hps,
                  if_pos hmax] at h
                exact alternation_pair _ _ _ _ k ev h
              · simp only [searchLoop, hlt, if_true, hf, hcap, hstat, requestExceptionBranch, hps,
                  if_neg hmax] at h
                exact alternation_cons2 _ _ _ _ h
                  fun k ev hh => ih (attempts + 1) (idx + 1) (poolNext pool).2 k ev hh
            · simp only [searchLoop, hlt, if_true, hf, hcap, hstat, requestExceptionBranch, hps,
                if_false, Bool.false_eq_true] at h
              exact alternation_pair _ _ _ _ k ev h
          · simp only [searchLoop, hlt, if_true, hf, hcap, hstat] at h
            exact alternation_single _ _ _ k ev h
    · simp [searchLoop, hlt] at h

theorem searchLoop_captcha_odd (norm : List Char → List Char)
    (parseBody : List Char → List Container) (numResults : ℤ) (fetch : ℕ → FetchOutcome)
    (sess : Session) (maxAtt : ℕ) :
    ∀ (fuel attempts idx : ℕ) (pool : RotationPool),
      (searchLoop norm parseBody numResults fetch sess maxAtt fuel attempts idx pool).1 =
        .captchaError →
      (searchLoop norm parseBody numResults fetch sess maxAtt fuel attempts idx pool).2.length % 2 =
        1 := by
  intro fuel
  induction fuel with
  | zero => intro attempts idx pool h; simp [searchLoop] at h
  | succ fuel ih =>
    intro attempts idx pool h
    by_cases hlt : attempts < maxAtt
    · rcases hf : fetch idx with _ | ⟨body, status⟩
      · by_cases hps : (poolNext pool).1.isSome
        · by_cases hmax : maxAtt ≤ attempts + 1
          · simp [searchLoop, hlt, hf, requestExceptionBranch, hps, hmax] at h
          · simp [searchLoop, hlt, hf, requestExceptionBranch, hps, hmax] at h ⊢
            have := ih (attempts + 1) (idx + 1) (poolNext pool).2 h
            omega
        · simp [searchLoop, hlt, hf, requestExceptionBranch, hps] at h
      · by_cases hcap : isCaptchaPage norm body
        · by_cases hmax : maxAtt ≤ attempts + 1
          · simp [searchLoop, hlt, hf, hcap, hmax]
          · simp [searchLoop, hlt, hf, hcap, hmax] at h ⊢
            have := ih (attempts + 1) (idx + 1) (poolNext pool).2 h
            omega
        · by_cases hstat : 400 ≤ status
          · by_cases hps : (poolNext pool).1.isSome
            · by_cases hmax : maxAtt ≤ attempts + 1
              · simp [searchLoop, hlt, hf, hcap, hstat, requestExceptionBranch, hps, hmax] at h
              · simp [searchLoop, hlt, hf, hcap, hstat, requestExceptionBranch, hps, hmax] at h ⊢
                have := ih (attempts + 1) (idx + 1) (poolNext pool).2 h
                omega
            · simp [searchLoop, hlt, hf, hcap, hstat, requestExceptionBranch, hps] at h
          · simp [searchLoop, hlt, hf, hcap, hstat] at h
    · simp [searchLoop, hlt] at h

theorem searchLoop_emptyPool_noProxy (norm : List Char → List Char)
    (parseBody : List Char → List Container) (numResults : ℤ) (fetch : ℕ → FetchOutcome)
    (sess : Session) (maxAtt : ℕ) :
    ∀ (fuel attempts idx : ℕ) (pool : RotationPool), pool.values = [] →
      ∀ (i : ℕ) (p : Option String) (ua : String),
        Event.attempt i p ua ∈
          (searchLoop norm parseBody numResults fetch sess maxAtt fuel attempts idx pool).2 →
        p = none := by
  intro fuel
  induction fuel with
  | zero => intro attempts idx pool _ i p ua h; simp [searchLoop] at h
  | succ fuel ih =>
    intro attempts idx pool hpool i p ua h
    have hpn : poolNext pool = (none, pool) := poolNext_of_nil pool hpool
    by_cases hlt : attempts < maxAtt
    · rcases hf : fetch idx with _ | ⟨body, status⟩
      · simp [searchLoop, hlt, hf, hpn, requestExceptionBranch] at h
        exact h.2.1
      · by_cases hcap : isCaptchaPage norm body
        · by_cases hmax : maxAtt ≤ attempts + 1
          · simp [searchLoop, hlt, hf, hpn, hcap, hmax] at h
            exact h.2.1
          · simp [searchLoop, hlt, hf, hpn, hcap, hmax] at h
            rcases h with ⟨_, h, _⟩ | h
            · exact h
            · exact ih (attempts + 1) (idx + 1) pool hpool i p ua h
        · by_cases hstat : 400 ≤ status
          · simp [searchLoop, hlt, hf, hpn, hcap, hstat, requestExceptionBranch] at h
            exact h.2.1
          · simp [searchLoop, hlt, hf, hpn, hcap, hstat] at h
            exact h.2.1
    · simp [searchLoop, hlt] at h

/-- The part of a fetch outcome the retry loop observes: the loop treats
a transport exception and an error status on a clean body identically,
treats every blocked body identically regardless of status, and on a
genuine success only the body matters. -/
inductive FetchObs where
  | transportFail
  | blockedPage
  | okPage (body : List Char)
deriving DecidableEq

def classifyFetch (norm : List Char → List Char) : FetchOutcome → FetchObs
  | .exn => .transportFail
  | .page body status =>
    if isCaptchaPage norm body then .blockedPage
    else if 400 ≤ status then .transportFail
    else .okPage body

theorem searchLoop_congr (norm : List Char → List Char)
    (parseBody : List Char → List Container) (numResults : ℤ)
    (fetch1 fetch2 : ℕ → FetchOutcome) (sess : Session) (maxAtt : ℕ)
    (hcl : ∀ i, classifyFetch norm (fetch1 i) = classifyFetch norm (fetch2 i)) :
    ∀ (fuel attempts idx : ℕ) (pool : RotationPool),
      searchLoop norm parseBody numResults fetch1 sess maxAtt fuel attempts idx pool =
        searchLoop norm parseBody numResults fetch2 sess maxAtt fuel attempts idx pool := by
  intro fuel
  induction fuel with
  | zero => intro attempts idx pool; rfl
  | succ fuel ih =>
    intro attempts idx pool
    by_cases hlt : attempts < maxAtt
    · have hcli := hcl idx
      have ihr := ih (attempts + 1) (idx + 1) (poolNext pool).2
      rcases hf1 : fetch1 idx with _ | ⟨body1, status1⟩ <;>
        rcases hf2 : fetch2 idx with _ | ⟨body2, status2⟩ <;>
          rw [hf1, hf2] at hcli
      · simp [searchLoop, hlt, hf1, hf2, ihr]
      · rw [classifyFetch, classifyFetch] at hcli
        by_cases hcap2 : isCaptchaPage norm body2
        · rw [if_pos hcap2] at hcli
          exact absurd hcli (by simp)
        · rw [if_neg hcap2] at hcli
          by_cases hstat2 : 400 ≤ status2
          · simp [searchLoop, hlt, hf1, hf2, hcap2, hstat2, ihr]
          · rw [if_neg hstat2] at hcli
            exact absurd hcli (by simp)
      · rw [classifyFetch, classifyFetch] at hcli
        by_cases hcap1 : isCaptchaPage norm body1
        · rw [if_pos hcap1] at hcli
          exact absurd hcli (by simp)
        · rw [if_neg hcap1] at hcli
          by_cases hstat1 : 400 ≤ status1
          · simp [searchLoop, hlt, hf1, hf2, hcap1, hstat1, ihr]
          · rw [if_neg hstat1] at hcli
            exact absurd hcli (by simp)
      · rw [classifyFetch, classifyFetch] at hcli
        by_cases hcap1 : isCaptchaPage norm body1 <;> by_cases hcap2 : isCaptchaPage norm body2
        · simp [searchLoop, hlt, hf1, hf2, hcap1, hcap2, ihr]
        · rw [if_pos hcap1, if_neg hcap2] at hcli
          by_cases hstat2 : 400 ≤ status2 <;> simp [hstat2] at hcli
        · rw [if_neg hcap1, if_pos hcap2] at hcli
          by_cases hstat1 : 400 ≤ status1 <;> simp [hstat1] at hcli
        · rw [if_neg hcap1, if_neg hcap2] at hcli
          by_cases hstat1 : 400 ≤ status1 <;> by_cases hstat2 : 400 ≤ status2
          · simp [searchLoop, hlt, hf1, hf2, hcap1, hcap2, hstat1, hstat2, ihr]
          · simp [hstat1, hstat2] at hcli
          · simp [hstat1, hstat2] at hcli
          · simp [hstat1, hstat2] at hcli
            simp [searchLoop, hlt, hf1, hf2, hcap1, hcap2, hstat1, hstat2, ihr, hcli]
    · simp [searchLoop, hlt]

/-! ## Claim theorems -/

theorem indicators_nonempty : ∀ s ∈ indicatorSets, ∀ i ∈ s, i.data ≠ [] := by decide

/-- C3: for every body, the anti-bot classifier returns blocked iff at
least one indicator phrase from one of the five families occurs as a
substring of the case-folded body or of the case-folded
diacritics-stripped body (`norm` is that second text transform, which
maps the empty body to itself); in particular a page containing none of
the markers in either variant is not blocked. -/
theorem antibot_blocked_iff_indicator (norm : List Char → List Char) (html : List Char)
    (hnorm : norm [] = []) :
    isCaptchaPage norm html = true ↔
      ∃ indicatorSet ∈ indicatorSets, ∃ ind ∈ indicatorSet,
        (ind.data <:+: lowerChars html ∨ ind.data <:+: norm html) := by
  by_cases h : html.isEmpty
  · have he : html = [] := by simpa using h
    constructor
    · intro hb
      rw [isCaptchaPage, if_pos h] at hb
      exact absurd hb (by simp)
    · rintro ⟨s, hs, ind, hind, hor⟩
      exfalso
      have hne := indicators_nonempty s hs ind hind
      subst he
      rcases hor with hinf | hinf
      · exact hne (List.sublist_nil.mp hinf.sublist)
      · rw [hnorm] at hinf
        exact hne (List.sublist_nil.mp hinf.sublist)
  · rw [isCaptchaPage, if_neg h]
    simp only [List.any_eq_true, decide_eq_true_eq, List.mem_cons, List.not_mem_nil, or_false,
      List.mem_singleton]
    constructor
    · rintro ⟨s, hs, ind, hind, sp, hsp, hinf⟩
      refine ⟨s, hs, ind, hind, ?_⟩
      rcases hsp with rfl | rfl
      · exact Or.inl hinf
      · exact Or.inr hinf
    · rintro ⟨s, hs, ind, hind, hor⟩
      rcases hor with hinf | hinf
      · exact ⟨s, hs, ind, hind, lowerChars html, Or.inl rfl, hinf⟩
      · exact ⟨s, hs, ind, hind, norm html, Or.inr rfl, hinf⟩

/-- Witness for C3: a body containing the `g-recaptcha` marker is
blocked; via the theorem applied at `norm = identity`. -/
theorem antibot_blocked_iff_indicator_witness :
    isCaptchaPage (fun s => s) "a g-recaptcha page".data = true :=
  (antibot_blocked_iff_indicator (fun s => s) "a g-recaptcha page".data rfl).mpr
    ⟨recaptchaMarkers, by decide, "g-recaptcha", by decide, Or.inl (by decide)⟩

/-- C5: for every attempt number `n ≥ 1` and every jitter sample
`j ∈ [0, jitterMax]`, the backoff delay equals
`min(delay * 2^(n-1) + jitter, maxBackoff)` for some
`jitter ∈ [0, jitterMax]` when a positive cap is configured, else
`delay * 2^(n-1) + jitter`; it is `0` when `delay ≤ 0`, never negative,
and never exceeds a configured positive cap. -/
theorem backoff_delay_contract (delay maxBackoff jitterMax j : ℚ) (n : ℕ)
    (hn : 1 ≤ n) (hj0 : 0 ≤ j) (hj1 : j ≤ jitterMax) :
    (∃ jit, 0 ≤ jit ∧ jit ≤ jitterMax ∧
        delayFor delay maxBackoff jitterMax j n =
          (if delay ≤ 0 then 0
           else if 0 < maxBackoff then min (delay * 2 ^ (n - 1) + jit) maxBackoff
           else delay * 2 ^ (n - 1) + jit)) ∧
      (delay ≤ 0 → delayFor delay maxBackoff jitterMax j n = 0) ∧
      0 ≤ delayFor delay maxBackoff jitterMax j n ∧
      (0 < maxBackoff → delayFor delay maxBackoff jitterMax j n ≤ maxBackoff) := by
  have hjm : 0 ≤ jitterMax := le_trans hj0 hj1
  by_cases hd : delay ≤ 0
  · refine ⟨⟨0, le_refl 0, hjm, ?_⟩, fun _ => ?_, ?_, fun _ => ?_⟩ <;>
      simp [delayFor, hd] <;> linarith
  · have hdpos : 0 < delay := lt_of_not_le hd
    have hmax : max (n - 1) 0 = n - 1 := Nat.max_eq_left (Nat.zero_le _)
    have hbase : 0 < delay * 2 ^ (n - 1) := by positivity
    have hjit0 : 0 ≤ (if 0 < jitterMax then j else (0 : ℚ)) := by
      split
      · exact hj0
      · exact le_refl 0
    have hjit1 : (if 0 < jitterMax then j else (0 : ℚ)) ≤ jitterMax := by
      split
      · exact hj1
      · exact hjm
    have hsum : 0 < delay * 2 ^ (n - 1) + (if 0 < jitterMax then j else (0 : ℚ)) := by linarith
    have heq : delayFor delay maxBackoff jitterMax j n =
        (if 0 < maxBackoff
         then min (delay * 2 ^ (n - 1) + (if 0 < jitterMax then j else (0 : ℚ))) maxBackoff
         else delay * 2 ^ (n - 1) + (if 0 < jitterMax then j else (0 : ℚ))) := by
      simp only [delayFor, if_neg hd, hmax]
      by_cases hmb : 0 < maxBackoff
      · rw [if_pos hmb, if_neg (not_le.mpr (lt_min hsum hmb))]
      · rw [if_neg hmb, if_neg (not_le.mpr hsum)]
    refine ⟨⟨(if 0 < jitterMax then j else (0 : ℚ)), hjit0, hjit1, by rw [heq, if_neg hd]⟩,
      fun hc => absurd hc hd, ?_, fun hmb => ?_⟩
    · rw [heq]
      by_cases hmb : 0 < maxBackoff
      · rw [if_pos hmb]
        exact le_of_lt (lt_min hsum hmb)
      · rw [if_neg hmb]
        exact le_of_lt hsum
    · rw [heq, if_pos hmb]
      exact min_le_right _ _

/-- Witness for C5: `delay = 1`, `maxBackoff = 30`, `jitterMax = 1/2`,
sample `j = 1/4`, attempt 2, via the theorem. -/
theorem backoff_delay_contract_witness :
    0 ≤ delayFor 1 30 (1 / 2) (1 / 4) 2 ∧ delayFor 1 30 (1 / 2) (1 / 4) 2 ≤ 30 := by
  have h := backoff_delay_contract 1 30 (1 / 2) (1 / 4) 2 (by norm_num) (by norm_num) (by norm_num)
  exact ⟨h.2.2.1, h.2.2.2 (by norm_num)⟩

/-- C7: an unset, zero or negative configured cap disables the limiter
(acquire is a no-op); with a positive cap `r` and a well-formed window
(sorted timestamps, all at or before `now`, at most `r` entries), after
the acquire step every recorded timestamp lies within the trailing
60-second window, the count never exceeds the cap, the count only
reaches the cap after a sleep, and the sleep is
`60 - (now - oldest_pruned_entry)`. -/
theorem rate_limiter_invariant :
    (∀ (ts : List ℚ) (now : ℚ),
        enforceRateLimit (normalizeCap none) ts now = ⟨ts, now, false⟩) ∧
      (∀ (c : ℤ) (ts : List ℚ) (now : ℚ), c ≤ 0 →
        enforceRateLimit (normalizeCap (some c)) ts now = ⟨ts, now, false⟩) ∧
      (∀ (r : ℤ) (ts : List ℚ) (now : ℚ), 0 < r → ts.Pairwise (· ≤ ·) →
        (∀ t ∈ ts, t ≤ now) → (ts.length : ℤ) ≤ r →
        (∀ t ∈ (enforceRateLimit (some r) ts now).timestamps,
            (enforceRateLimit (some r) ts now).endTime - t < 60 ∧
              t ≤ (enforceRateLimit (some r) ts now).endTime) ∧
          ((enforceRateLimit (some r) ts now).timestamps.length : ℤ) ≤ r ∧
          ((enforceRateLimit (some r) ts now).slept = false →
            ((pruneTimestamps now ts).length : ℤ) < r) ∧
          ((enforceRateLimit (some r) ts now).slept = true →
            ∃ e rest, pruneTimestamps now ts = e :: rest ∧
              (enforceRateLimit (some r) ts now).endTime = now + (60 - (now - e)))) := by
  refine ⟨fun ts now => rfl, fun c ts now hc => ?_, fun r ts now hr hsort hle hlen => ?_⟩
  · rw [normalizeCap, if_pos hc]
    rfl
  · have hr0 : r ≠ 0 := by omega
    have hp1 : (pruneTimestamps now ts).length ≤ ts.length := pruneTimestamps_length now ts
    have hpsort : (pruneTimestamps now ts).Pairwise (· ≤ ·) := pruneTimestamps_pairwise hsort
    have hfresh : ∀ t ∈ pruneTimestamps now ts, now - t < 60 :=
      pruneTimestamps_fresh now ts hsort
    have hmem : ∀ t ∈ pruneTimestamps now ts, t ≤ now :=
      fun t ht => hle t (mem_of_mem_pruneTimestamps ht)
    by_cases hcnt : ((pruneTimestamps now ts).length : ℤ) < r
    · have hres : enforceRateLimit (some r) ts now =
          ⟨pruneTimestamps now ts ++ [now], now, false⟩ := by
        rw [enforceRateLimit, if_neg hr0, if_pos hcnt]
      rw [hres]
      refine ⟨?_, ?_, fun _ => hcnt, fun hfalse => by simp at hfalse⟩
      · intro t ht
        rcases List.mem_append.mp ht with ht | ht
        · exact ⟨hfresh t ht, hmem t ht⟩
        · rw [List.mem_singleton.mp ht]
          norm_num
      · simp only [List.length_append, List.length_singleton]
        push_cast
        omega
    · rcases hpr : pruneTimestamps now ts with _ | ⟨e, rest⟩
      · rw [hpr] at hcnt
        simp at hcnt
        omega
      · have he : e ∈ pruneTimestamps now ts := by
          rw [hpr]
          exact List.mem_cons_self e rest
        have hefresh : now - e < 60 := hfresh e he
        have hsleep : 0 < 60 - (now - e) := by linarith
        have henow : e ≤ now := hmem e he
        have hrest_sort : rest.Pairwise (· ≤ ·) := by
          have := hpsort
          rw [hpr] at this
          exact (List.pairwise_cons.mp this).2
        have hres : enforceRateLimit (some r) ts now =
            ⟨pruneTimestamps (now + (60 - (now - e))) rest ++ [now + (60 - (now - e))],
              now + (60 - (now - e)), true⟩ := by
          rw [enforceRateLimit, if_neg hr0, if_neg hcnt, hpr]
          simp only [if_pos hsleep]
          rw [pruneTimestamps, if_pos (by linarith : (60 : ℚ) ≤ now + (60 - (now - e)) - e)]
        rw [hres]
        dsimp only
        have hnow2 : now < now + (60 - (now - e)) := by linarith
        have hrest_fresh : ∀ t ∈ pruneTimestamps (now + (60 - (now - e))) rest,
            now + (60 - (now - e)) - t < 60 :=
          pruneTimestamps_fresh (now + (60 - (now - e))) rest hrest_sort
        have hrest_mem : ∀ t ∈ pruneTimestamps (now + (60 - (now - e))) rest, t ∈ rest :=
          fun t ht => mem_of_mem_pruneTimestamps ht
        refine ⟨?_, ?_, fun htrue => by simp at htrue, fun _ => ⟨e, rest, rfl, rfl⟩⟩
        · intro t ht
          rcases List.mem_append.mp ht with ht | ht
          · refine ⟨hrest_fresh t ht, ?_⟩
            have htr : t ∈ rest := hrest_mem t ht
            have : t ∈ pruneTimestamps now ts := by
              rw [hpr]
              exact List.mem_cons_of_mem e htr
            have := hmem t this
            linarith
          · rw [List.mem_singleton.mp ht]
            norm_num
        · have hlen2 : (pruneTimestamps (now + (60 - (now - e))) rest).length ≤ rest.length :=
            pruneTimestamps_length _ rest
          have hlen3 : (e :: rest).length ≤ ts.length := by
            rw [← hpr]
            exact hp1
          simp only [List.length_append, List.length_singleton]
          simp only [List.length_cons] at hlen3
          push_cast
          omega

/-- Witness for C7: a disabled cap `0` is a no-op, and one acquire with
cap `1` on an empty window records a single fresh timestamp without
sleeping; via the theorem. -/
theorem rate_limiter_invariant_witness :
    enforceRateLimit (normalizeCap (some 0)) [] 5 = ⟨[], 5, false⟩ ∧
      ((enforceRateLimit (some 1) [] 5).timestamps.length : ℤ) ≤ 1 := by
  refine ⟨rate_limiter_invariant.2.1 0 [] 5 (by norm_num), ?_⟩
  exact (rate_limiter_invariant.2.2 1 [] 5 (by norm_num) (by simp) (by simp) (by simp)).2.1

/-- Counterexample to C8 as stated: with `limit = 0` the extraction loop
still examines the first container and, because the length check only
runs after the append, returns one result — more than `limit`. -/
theorem extraction_limit_zero_cex :
    extractResults 0 [⟨some "T", some "L", none, none⟩] =
        [⟨"T", "L", "No description"⟩] ∧
      ¬ (extractResults 0 [⟨some "T", some "L", none, none⟩]).length ≤ 0 := by
  constructor
  · rfl
  · decide

/-- C8 (amended): for every container list and every `limit ≥ 1`,
extraction returns exactly the first `limit` results of mapping the
contributing containers (those whose title and link are both present,
with the snippet falling back through span, div, then the placeholder)
in document order; hence at most `limit` results, and once `limit`
results have been collected the remaining containers are never examined
(appending further containers cannot change the output).  For
`limit ≤ 0` the first container is still examined and may contribute one
result. -/
theorem extraction_contract_amended (cs rest : List Container) (numResults : ℤ)
    (h : 1 ≤ numResults) :
    extractResults numResults cs =
        ((cs.filter contributes).map mkSearchResult).take numResults.toNat ∧
      (extractResults numResults cs).length ≤ numResults.toNat ∧
      ((extractResults numResults cs).length = numResults.toNat →
        extractResults numResults (cs ++ rest) = extractResults numResults cs) := by
  have hchar : ∀ l : List Container, extractResults numResults l =
      ((l.filter contributes).map mkSearchResult).take numResults.toNat := by
    intro l
    rw [extractResults, extractLoop_characterization numResults l 0 (by omega)]
    norm_num
  refine ⟨hchar cs, ?_, ?_⟩
  · rw [hchar cs]
    exact List.length_take_le _ _
  · intro hsat
    rw [hchar cs] at hsat
    rw [List.length_take] at hsat
    have hge : numResults.toNat ≤ ((cs.filter contributes).map mkSearchResult).length := by
      omega
    rw [hchar (cs ++ rest), hchar cs, List.filter_append, List.map_append,
      List.take_append_of_le_length hge]

/-- Witness for C8 (amended): two contributing containers, `limit = 1`:
exactly the first is returned, and appending more containers changes
nothing; via the theorem. -/
theorem extraction_contract_amended_witness :
    extractResults 1 [⟨some "A", some "a", none, none⟩, ⟨some "B", some "b", none, none⟩] =
        [⟨"A", "a", "No description"⟩] ∧
      (extractResults 1 [⟨some "A", some "a", none, none⟩,
          ⟨some "B", some "b", none, none⟩]).length ≤ 1 := by
  have h := extraction_contract_amended
    [⟨some "A", some "a", none, none⟩, ⟨some "B", some "b", none, none⟩] [] 1 (by norm_num)
  refine ⟨?_, h.2.1⟩
  rw [h.1]
  rfl

/-- C9: rotation over a pool of `k ≥ 1` cleaned configured values
returns, over any `k` consecutive calls, each configured value exactly
once in configured order with wraparound (the output run is a rotation
of the configured list, hence a permutation of it); a one-element pool
always returns its element; empty entries are dropped when the pool is
built; with zero values rotation is disabled: `next` yields no proxy,
every attempt of a `search` call uses no proxy, and the session keeps
its default user-agent. -/
theorem rotation_pool_contract :
    (∀ (l : List String) (idx : ℕ), l ≠ [] →
        poolOutputs ⟨l, idx⟩ l.length = (l.rotate (idx % l.length)).map some) ∧
      (∀ (l : List String) (idx : ℕ), l ≠ [] →
        (poolOutputs ⟨l, idx⟩ l.length).Perm (l.map some)) ∧
      (∀ (s : String) (idx : ℕ), s ≠ "" → (poolNext ⟨cleanedProxies [s], idx⟩).1 = some s) ∧
      (∀ raw : List String, "" ∉ cleanedProxies raw) ∧
      (∀ idx : ℕ, (poolNext ⟨[], idx⟩).1 = none) ∧
      (∀ (norm : List Char → List Char) (parseBody : List Char → List Container)
          (numResults : ℤ) (fetch : ℕ → FetchOutcome) (sess : Session)
          (uaPool proxyPool : RotationPool), uaPool.values = [] →
        (search norm parseBody numResults fetch sess uaPool proxyPool).finalSession = sess) ∧
      (∀ (norm : List Char → List Char) (parseBody : List Char → List Container)
          (numResults : ℤ) (fetch : ℕ → FetchOutcome) (sess : Session)
          (uaPool proxyPool : RotationPool), proxyPool.values = [] →
        ∀ (i : ℕ) (p : Option String) (ua : String),
          Event.attempt i p ua ∈
            (search norm parseBody numResults fetch sess uaPool proxyPool).trace →
          p = none) := by
  refine ⟨poolOutputs_rotate, ?_, ?_, ?_, fun idx => rfl, ?_, ?_⟩
  · intro l idx hl
    rw [poolOutputs_rotate l idx hl]
    exact (List.rotate_perm l (idx % l.length)).map some
  · intro s idx hs
    have hcl : cleanedProxies [s] = [s] := by
      simp [cleanedProxies, hs]
    rw [hcl]
    simp [poolNext, Nat.mod_one]
  · intro raw hmem
    rw [cleanedProxies, List.mem_filter] at hmem
    simp at hmem
  · intro norm parseBody numResults fetch sess uaPool proxyPool hua
    show entrySession sess uaPool = sess
    rw [entrySession, poolNext_of_nil uaPool hua]
  · intro norm parseBody numResults fetch sess uaPool proxyPool hpx i p ua hmem
    rw [search] at hmem
    exact searchLoop_emptyPool_noProxy _ _ _ _ _ _ _ 0 0 proxyPool hpx i p ua hmem

/-- Witness for C9: a two-element pool cycles `a, b` starting at the
cursor, a singleton pool always yields its element, and an empty pool
yields none; via the theorem. -/
theorem rotation_pool_contract_witness :
    poolOutputs ⟨["a", "b"], 0⟩ 2 = [some "a", some "b"] ∧
      (poolNext ⟨cleanedProxies ["x"], 7⟩).1 = some "x" ∧
      (poolNext ⟨[], 3⟩).1 = none := by
  refine ⟨?_, rotation_pool_contract.2.2.1 "x" 7 (by decide), rotation_pool_contract.2.2.2.2.1 3⟩
  rw [show (2 : ℕ) = ["a", "b"].length from rfl,
    rotation_pool_contract.1 ["a", "b"] 0 (by decide)]
  rfl

/-- C1: if every attempt's fetched body is blocked, `search` raises the
explicit CAPTCHA error after exactly `max_attempts` attempts
(`max_attempts` = proxy-pool size, or 1 with no proxies —
`maxAttemptsFor`); the CAPTCHA error arises only from a blocked fetched
body, and an environment that never returns a blocked body always
surfaces a returned result list (possibly empty), never a raised
error. -/
theorem search_captcha_exhaustion (norm : List Char → List Char)
    (parseBody : List Char → List Container) (numResults : ℤ) (fetch : ℕ → FetchOutcome)
    (sess : Session) (uaPool proxyPool : RotationPool) :
    ((∀ i, ∃ body status, fetch i = .page body status ∧ isCaptchaPage norm body = true) →
        (search norm parseBody numResults fetch sess uaPool proxyPool).outcome =
            .captchaError ∧
          countAttempts (search norm parseBody numResults fetch sess uaPool proxyPool).trace =
            maxAttemptsFor proxyPool) ∧
      ((search norm parseBody numResults fetch sess uaPool proxyPool).outcome = .captchaError →
        ∃ i body status, fetch i = .page body status ∧ isCaptchaPage norm body = true) ∧
      ((∀ i body status, fetch i = .page body status → isCaptchaPage norm body = false) →
        ∃ rs, (search norm parseBody numResults fetch sess uaPool proxyPool).outcome = .ok rs) := by
  refine ⟨fun hb => ?_, fun hc => ?_, fun hnb => ?_⟩
  · exact searchLoop_allBlocked norm parseBody numResults fetch _ (maxAttemptsFor proxyPool) hb
      (maxAttemptsFor proxyPool) 0 0 proxyPool (by omega) (maxAttemptsFor_pos proxyPool)
  · exact searchLoop_captcha_needs_blocked norm parseBody numResults fetch _
      (maxAttemptsFor proxyPool) (maxAttemptsFor proxyPool) 0 0 proxyPool hc
  · exact searchLoop_noBlocked_ok norm parseBody numResults fetch _ (maxAttemptsFor proxyPool)
      hnb (maxAttemptsFor proxyPool) 0 0 proxyPool

/-- Witness for C1: a one-attempt run whose only response is a
reCAPTCHA page raises the CAPTCHA error; via the theorem. -/
theorem search_captcha_exhaustion_witness :
    (search (fun s => s) (fun _ => []) 10
        (fun _ => .page "a g-recaptcha page".data 200) ⟨"UA", []⟩ ⟨[], 0⟩ ⟨[], 0⟩).outcome =
      .captchaError :=
  ((search_captcha_exhaustion (fun s => s) (fun _ => []) 10
      (fun _ => .page "a g-recaptcha page".data 200) ⟨"UA", []⟩ ⟨[], 0⟩ ⟨[], 0⟩).1
    fun _ => ⟨"a g-recaptcha page".data, 200, rfl, by decide⟩).1

/-- C2: if the transport raises a request exception on every attempt,
`search` returns the empty result list without raising, and the number
of attempts made equals the number of configured proxies, or 1 when
none are configured. -/
theorem search_transport_exhaustion (norm : List Char → List Char)
    (parseBody : List Char → List Container) (numResults : ℤ) (fetch : ℕ → FetchOutcome)
    (sess : Session) (uaPool proxyPool : RotationPool) (hexn : ∀ i, fetch i = .exn) :
    (search norm parseBody numResults fetch sess uaPool proxyPool).outcome = .ok [] ∧
      countAttempts (search norm parseBody numResults fetch sess uaPool proxyPool).trace =
        maxAttemptsFor proxyPool ∧
      maxAttemptsFor proxyPool =
        (if proxyPool.values = [] then 1 else proxyPool.values.length) := by
  have hiff : maxAttemptsFor proxyPool =
      (if proxyPool.values = [] then 1 else proxyPool.values.length) := by
    rw [maxAttemptsFor]
    by_cases hpx : proxyPool.values = [] <;> simp [hpx]
  by_cases hpx : proxyPool.values = []
  · have hmax : maxAttemptsFor proxyPool = 1 := by
      rw [hiff, if_pos hpx]
    have hrun := searchLoop_noProxy_exn norm parseBody numResults fetch
      (entrySession sess uaPool) (maxAttemptsFor proxyPool) 0 0 0 proxyPool hpx (hexn 0)
      (maxAttemptsFor_pos proxyPool)
    refine ⟨?_, ?_, hiff⟩
    · rw [hmax] at hrun
      dsimp only [search]
      rw [hmax]
      exact congrArg Prod.fst hrun
    · rw [hmax] at hrun
      dsimp only [search]
      rw [hmax]
      have h2 := congrArg Prod.snd hrun
      exact (by rw [h2]; rfl :
        countAttempts (searchLoop norm parseBody numResults fetch (entrySession sess uaPool)
          1 (0 + 1) 0 0 proxyPool).2 = 1)
  · have h := searchLoop_allExn norm parseBody numResults fetch (entrySession sess uaPool)
      (maxAttemptsFor proxyPool) hexn (maxAttemptsFor proxyPool) 0 0 proxyPool hpx (by omega)
      (maxAttemptsFor_pos proxyPool)
    exact ⟨h.1, h.2.1, hiff⟩

/-- Witness for C2: two configured proxies, every attempt failing:
empty result list after exactly 2 attempts; via the theorem. -/
theorem search_transport_exhaustion_witness :
    (search (fun s => s) (fun _ => []) 10 (fun _ => .exn) ⟨"UA", []⟩ ⟨[], 0⟩
        ⟨["p1", "p2"], 0⟩).outcome = .ok [] ∧
      countAttempts (search (fun s => s) (fun _ => []) 10 (fun _ => .exn) ⟨"UA", []⟩ ⟨[], 0⟩
        ⟨["p1", "p2"], 0⟩).trace = 2 := by
  have h := search_transport_exhaustion (fun s => s) (fun _ => []) 10 (fun _ => .exn)
    ⟨"UA", []⟩ ⟨[], 0⟩ ⟨["p1", "p2"], 0⟩ fun _ => rfl
  exact ⟨h.1, h.2.1⟩

/-- C4: the anti-bot check runs on the body before `raise_for_status`:
a blocked body takes the CAPTCHA path whatever the status code (changing
the status of a blocked response cannot change the outcome, trace or
session of the call), and a 4xx/5xx status on a body that passes
detection is handled exactly like a transport failure (replacing such a
response by a raised request exception changes nothing), so a status
error is never raised to the caller. -/
theorem detection_precedes_status_validation (norm : List Char → List Char)
    (parseBody : List Char → List Container) (numResults : ℤ) (fetch : ℕ → FetchOutcome)
    (sess : Session) (uaPool proxyPool : RotationPool) (i : ℕ) :
    (∀ (body : List Char) (status newStatus : ℕ), fetch i = .page body status →
        isCaptchaPage norm body = true →
        search norm parseBody numResults fetch sess uaPool proxyPool =
          search norm parseBody numResults (Function.update fetch i (.page body newStatus))
            sess uaPool proxyPool) ∧
      (∀ (body : List Char) (status : ℕ), fetch i = .page body status →
        isCaptchaPage norm body = false → 400 ≤ status →
        search norm parseBody numResults fetch sess uaPool proxyPool =
          search norm parseBody numResults (Function.update fetch i .exn)
            sess uaPool proxyPool) := by
  constructor
  · intro body status newStatus hf hcap
    have hcl : ∀ j, classifyFetch norm (fetch j) =
        classifyFetch norm (Function.update fetch i (.page body newStatus) j) := by
      intro j
      by_cases hj : j = i
      · subst hj
        rw [Function.update_same, hf, classifyFetch, classifyFetch, if_pos hcap, if_pos hcap]
      · rw [Function.update_noteq hj]
    have hloop := searchLoop_congr norm parseBody numResults fetch
      (Function.update fetch i (.page body newStatus)) (entrySession sess uaPool)
      (maxAttemptsFor proxyPool) hcl (maxAttemptsFor proxyPool) 0 0 proxyPool
    dsimp only [search]
    rw [hloop]
  · intro body status hf hcap hstat
    have hcl : ∀ j, classifyFetch norm (fetch j) =
        classifyFetch norm (Function.update fetch i .exn j) := by
      intro j
      by_cases hj : j = i
      · subst hj
        rw [Function.update_same, hf, classifyFetch, classifyFetch, if_neg (by simp [hcap]),
          if_pos hstat]
      · rw [Function.update_noteq hj]
    have hloop := searchLoop_congr norm parseBody numResults fetch
      (Function.update fetch i .exn) (entrySession sess uaPool)
      (maxAttemptsFor proxyPool) hcl (maxAttemptsFor proxyPool) 0 0 proxyPool
    dsimp only [search]
    rw [hloop]

/-- Witness for C4: a clean one-character body with status 500 behaves
exactly like a raised transport exception; via the theorem. -/
theorem detection_precedes_status_validation_witness :
    search (fun s => s) (fun _ => []) 10 (fun _ => .page "x".data 500) ⟨"UA", []⟩ ⟨[], 0⟩
        ⟨[], 0⟩ =
      search (fun s => s) (fun _ => [])  10
        (Function.update (fun _ => .page "x".data 500) 0 .exn) ⟨"UA", []⟩ ⟨[], 0⟩ ⟨[], 0⟩ :=
  (detection_precedes_status_validation (fun s => s) (fun _ => []) 10
      (fun _ => .page "x".data 500) ⟨"UA", []⟩ ⟨[], 0⟩ ⟨[], 0⟩ 0).2 "x".data 500 rfl
    (by decide) (by norm_num)

/-- Counterexample to C6 as stated: with no proxies and a transport that
fails, the single failing attempt reaches `attempt >= max_attempts`, yet
the call still applies one backoff sleep (line 194 runs before the
exhaustion test) before returning the empty result list — the trace ends
with a backoff event, not with the terminal attempt. -/
theorem backoff_on_terminal_network_exhaustion_cex :
    search (fun s => s) (fun _ => []) 10 (fun _ => .exn) ⟨"UA", []⟩ ⟨[], 0⟩ ⟨[], 0⟩ =
        ⟨.ok [], [.attempt 0 none "UA", .backoff 1], ⟨"UA", []⟩⟩ ∧
      noTerminalBackoff
        (search (fun s => s) (fun _ => []) 10 (fun _ => .exn) ⟨"UA", []⟩ ⟨[], 0⟩
          ⟨[], 0⟩).trace = false := by
  exact ⟨rfl, rfl⟩

/-- C6 (amended): in every `search` call the trace strictly alternates —
attempts at even positions, backoffs at odd positions — so a backoff is
applied only right after a failed attempt and never before the first
attempt, and every retry is preceded by exactly one backoff; a CAPTCHA
exhaustion terminates directly after the final attempt without backoff
(odd trace length); but a network-error exhaustion applies one final
backoff before returning the empty list (even, non-empty trace length
when every attempt is a transport failure). -/
theorem backoff_schedule_amended (norm : List Char → List Char)
    (parseBody : List Char → List Container) (numResults : ℤ) (fetch : ℕ → FetchOutcome)
    (sess : Session) (uaPool proxyPool : RotationPool) :
    (∀ (k : ℕ) (ev : Event),
        (search norm parseBody numResults fetch sess uaPool proxyPool).trace[k]? = some ev →
        isAttemptEv ev = decide (k % 2 = 0)) ∧
      ((search norm parseBody numResults fetch sess uaPool proxyPool).outcome = .captchaError →
        (search norm parseBody numResults fetch sess uaPool proxyPool).trace.length % 2 = 1) ∧
      ((∀ i, fetch i = .exn) →
        (search norm parseBody numResults fetch sess uaPool proxyPool).trace.length % 2 = 0 ∧
          (search norm parseBody numResults fetch sess uaPool proxyPool).trace ≠ []) := by
  refine ⟨?_, ?_, fun hexn => ?_⟩
  · exact searchLoop_alternation norm parseBody numResults fetch _ (maxAttemptsFor proxyPool)
      (maxAttemptsFor proxyPool) 0 0 proxyPool
  · exact searchLoop_captcha_odd norm parseBody numResults fetch _ (maxAttemptsFor proxyPool)
      (maxAttemptsFor proxyPool) 0 0 proxyPool
  · by_cases hpx : proxyPool.values = []
    · have hmax : maxAttemptsFor proxyPool = 1 := by
        rw [maxAttemptsFor]
        simp [hpx]
      have hrun := searchLoop_noProxy_exn norm parseBody numResults fetch
        (entrySession sess uaPool) (maxAttemptsFor proxyPool) 0 0 0 proxyPool hpx (hexn 0)
        (maxAttemptsFor_pos proxyPool)
      rw [hmax] at hrun
      constructor
      · dsimp only [search]
        rw [hmax]
        have h2 := congrArg Prod.snd hrun
        exact (by rw [h2]; simp :
          (searchLoop norm parseBody numResults fetch (entrySession sess uaPool)
            1 (0 + 1) 0 0 proxyPool).2.length % 2 = 0)
      · dsimp only [search]
        rw [hmax]
        have h2 := congrArg Prod.snd hrun
        exact (by rw [h2]; simp :
          (searchLoop norm parseBody numResults fetch (entrySession sess uaPool)
            1 (0 + 1) 0 0 proxyPool).2 ≠ [])
    · have h := searchLoop_allExn norm parseBody numResults fetch (entrySession sess uaPool)
        (maxAttemptsFor proxyPool) hexn (maxAttemptsFor proxyPool) 0 0 proxyPool hpx (by omega)
        (maxAttemptsFor_pos proxyPool)
      have hlen := h.2.2
      constructor
      · show (searchLoop norm parseBody numResults fetch (entrySession sess uaPool)
            (maxAttemptsFor proxyPool) (maxAttemptsFor proxyPool) 0 0 proxyPool).2.length % 2 = 0
        omega
      · show (searchLoop norm parseBody numResults fetch (entrySession sess uaPool)
            (maxAttemptsFor proxyPool) (maxAttemptsFor proxyPool) 0 0 proxyPool).2 ≠ []
        have hpos := maxAttemptsFor_pos proxyPool
        intro hnil
        rw [hnil] at hlen
        simp at hlen
        omega

/-- Witness for C6 (amended): a two-proxy all-failing run has an
alternating trace of even length 4 starting with an attempt; via the
theorem. -/
theorem backoff_schedule_amended_witness :
    (search (fun s => s) (fun _ => []) 10 (fun _ => .exn) ⟨"UA", []⟩ ⟨[], 0⟩
        ⟨["p1", "p2"], 0⟩).trace.length % 2 = 0 ∧
      (search (fun s => s) (fun _ => []) 10 (fun _ => .exn) ⟨"UA", []⟩ ⟨[], 0⟩
        ⟨["p1", "p2"], 0⟩).trace ≠ [] :=
  (backoff_schedule_amended (fun s => s) (fun _ => []) 10 (fun _ => .exn) ⟨"UA", []⟩ ⟨[], 0⟩
    ⟨["p1", "p2"], 0⟩).2.2 fun _ => rfl

/-- C10: within one `search` call the `User-Agent` header is written at
most once, before the retry loop: every attempt of the call carries the
same user-agent — the one the session holds when the call returns — all
other session headers are unchanged, with no user-agent pool the session
is completely untouched (default user-agent kept), and with a pool the
active user-agent is the pool's next value. -/
theorem user_agent_set_once_per_call (norm : List Char → List Char)
    (parseBody : List Char → List Container) (numResults : ℤ) (fetch : ℕ → FetchOutcome)
    (sess : Session) (uaPool proxyPool : RotationPool) :
    (∀ (i : ℕ) (p : Option String) (ua : String),
        Event.attempt i p ua ∈
          (search norm parseBody numResults fetch sess uaPool proxyPool).trace →
        ua = (search norm parseBody numResults fetch sess uaPool proxyPool).finalSession.userAgent) ∧
      (search norm parseBody numResults fetch sess uaPool proxyPool).finalSession.otherHeaders =
        sess.otherHeaders ∧
      (uaPool.values = [] →
        (search norm parseBody numResults fetch sess uaPool proxyPool).finalSession = sess) ∧
      (uaPool.values ≠ [] →
        (poolNext uaPool).1 =
          some (search norm parseBody numResults fetch sess uaPool proxyPool).finalSession.userAgent) := by
  refine ⟨?_, ?_, fun hua => ?_, fun hua => ?_⟩
  · intro i p ua hmem
    exact searchLoop_ua_mem norm parseBody numResults fetch (entrySession sess uaPool)
      (maxAttemptsFor proxyPool) (maxAttemptsFor proxyPool) 0 0 proxyPool i p ua hmem
  · show (entrySession sess uaPool).otherHeaders = sess.otherHeaders
    rw [entrySession]
    rcases (poolNext uaPool).1 with _ | ua0 <;> rfl
  · show entrySession sess uaPool = sess
    rw [entrySession, poolNext_of_nil uaPool hua]
  · show (poolNext uaPool).1 = some (entrySession sess uaPool).userAgent
    have hps := poolNext_isSome uaPool hua
    rcases hpn : (poolNext uaPool).1 with _ | ua0
    · rw [hpn] at hps
      simp at hps
    · rw [entrySession, hpn]

/-- Witness for C10: with a one-agent pool and an all-failing transport,
the final session's user-agent is the pool's value and the other headers
are untouched; via the theorem. -/
theorem user_agent_set_once_per_call_witness :
    (poolNext ⟨["agent1"], 0⟩).1 =
        some (search (fun s => s) (fun _ => []) 10 (fun _ => .exn) ⟨"UA", [("Accept", "x")]⟩
          ⟨["agent1"], 0⟩ ⟨[], 0⟩).finalSession.userAgent ∧
      (search (fun s => s) (fun _ => []) 10 (fun _ => .exn) ⟨"UA", [("Accept", "x")]⟩
        ⟨["agent1"], 0⟩ ⟨[], 0⟩).finalSession.otherHeaders = [("Accept", "x")] :=
  ⟨(user_agent_set_once_per_call (fun s => s) (fun _ => []) 10 (fun _ => .exn)
      ⟨"UA", [("Accept", "x")]⟩ ⟨["agent1"], 0⟩ ⟨[], 0⟩).2.2.2 (by decide),
    (user_agent_set_once_per_call (fun s => s) (fun _ => []) 10 (fun _ => .exn)
      ⟨"UA", [("Accept", "x")]⟩ ⟨["agent1"], 0⟩ ⟨[], 0⟩).2.1⟩
